import Mathlib

/-!
Verification of the ESP3 packet codec (`src/packet.rs`) against its
natural-language specification.

The Rust source is shallowly embedded: bytes are `Nat` (always < 256 where they
come from a real buffer; the well-formedness is tracked by hypotheses where it
matters), byte slices are `List Nat`, fallible decoding returns an explicit
result type whose `crash` constructor models a Rust panic (index out of range
or a debug-mode arithmetic underflow).
-/

namespace Enocean

/-- Modelled from the spec: the frame boundary type (`ESP3Frame` /
`ESP3FrameRef` in `crate::frame`) is not under `src/`.  Per spec §2/§6 it is a
plain triple `packet_type`, `data`, `optional_data`; the read-view and the
owned value carry the same data, so one structure models both. -/
structure ESP3Frame where
  packet_type : Nat
  data : List Nat
  optional_data : List Nat
deriving DecidableEq, Repr

/-- Modelled from the spec: `ESP3Frame::assemble(packet_type, data,
optional_data)` (spec §6) stores the three segments verbatim; synchronization
bytes and checksums are the transport's business and invisible at this layer. -/
def ESP3Frame.assemble (packet_type : Nat) (data optional_data : List Nat) : ESP3Frame :=
  { packet_type := packet_type, data := data, optional_data := optional_data }

/-- `ParseError` from `src/packet.rs`.  The `Utf8Error` payload of the `UTF8`
variant is irrelevant to every claim, so it is dropped. -/
inductive ParseError where
  | UnsupportedPacketType
  | PacketTooShort
  | UTF8
  | InvalidResultCode (b : Nat)
  | InvalidPrimitive
deriving DecidableEq, Repr

/-- Result of running a Rust decode function: `crash` models a panic
(out-of-bounds indexing/slicing, or debug-mode integer underflow),
`error e` models `Err(e)`, `ok a` models `Ok(a)`. -/
inductive DecodeResult (α : Type) where
  | crash
  | error (e : ParseError)
  | ok (a : α)
deriving DecidableEq, Repr

/-- `Ok(f(x)?)`-style propagation: panics and errors pass through. -/
def DecodeResult.map {α β : Type} (f : α → β) : DecodeResult α → DecodeResult β
  | .crash => .crash
  | .error e => .error e
  | .ok a => .ok (f a)

/-- `Address([u8; 4])` from `src/packet.rs`, as four byte fields. -/
structure Address where
  b0 : Nat
  b1 : Nat
  b2 : Nat
  b3 : Nat
deriving DecidableEq, Repr

/-- The four fields really are bytes (`u8` in the source). -/
def Address.wf (a : Address) : Prop :=
  a.b0 < 256 ∧ a.b1 < 256 ∧ a.b2 < 256 ∧ a.b3 < 256

instance (a : Address) : Decidable a.wf := by
  unfold Address.wf; infer_instance

/-- `BROADCAST` constant from `src/packet.rs`. -/
def BROADCAST : Address := ⟨0xff, 0xff, 0xff, 0xff⟩

/-- One lowercase hex digit, as produced by Rust's `{:02x}` formatting. -/
def hexDigitChar (d : Nat) : Char :=
  if d < 10 then Char.ofNat (48 + d) else Char.ofNat (87 + d)

/-- `Display for Address`: `write!("{:02x}{:02x}{:02x}{:02x}", ..)` — eight
lowercase hex characters, two per byte, no separators.  (For a `u8` the
`{:02x}` form is exactly `b / 16` then `b % 16`.) -/
def Address.display (a : Address) : List Char :=
  [hexDigitChar (a.b0 / 16), hexDigitChar (a.b0 % 16),
   hexDigitChar (a.b1 / 16), hexDigitChar (a.b1 % 16),
   hexDigitChar (a.b2 / 16), hexDigitChar (a.b2 % 16),
   hexDigitChar (a.b3 / 16), hexDigitChar (a.b3 % 16)]

/-- `hex::val`: the value of one hex character; `none` on a non-hex
character (`FromHexError::InvalidHexCharacter`).  Accepts `0-9`, `a-f`, `A-F`. -/
def hexVal (c : Char) : Option Nat :=
  if 48 ≤ c.toNat ∧ c.toNat ≤ 57 then some (c.toNat - 48)
  else if 97 ≤ c.toNat ∧ c.toNat ≤ 102 then some (c.toNat - 87)
  else if 65 ≤ c.toNat ∧ c.toNat ≤ 70 then some (c.toNat - 55)
  else none

/-- The per-pair loop of `hex::decode_to_slice`: each output byte is
`val(hi) << 4 | val(lo)`; any bad character aborts. -/
def hexDecodePairs : List Char → Option (List Nat)
  | [] => some []
  | hi :: lo :: rest =>
    (hexVal hi).bind fun h =>
      (hexVal lo).bind fun l =>
        (hexDecodePairs rest).map fun bs => (16 * h + l) :: bs
  | [_] => none

/-- `FromStr for Address` via `hex::decode_to_slice(s, &mut [0u8; 4])`:
fails on odd length (`OddLength`), on length ≠ 8 (`InvalidStringLength`),
and on any non-hex character.  All error variants collapse to `none`
(the claims only distinguish success from failure).  The input is modelled
as the character list of the string; a successful decode forces every
character to be ASCII hex, on which characters and UTF-8 bytes coincide. -/
def Address.from_str (s : List Char) : Option Address :=
  if s.length % 2 ≠ 0 then none
  else if s.length / 2 ≠ 4 then none
  else match hexDecodePairs s with
    | some [x0, x1, x2, x3] => some ⟨x0, x1, x2, x3⟩
    | _ => none

/-- `SubtelNum` from `src/packet.rs`: `Send = 3`, `Receive = 0`. -/
inductive SubtelNum where
  | Send
  | Receive
deriving DecidableEq, Repr

/-- `TryFromPrimitive for SubtelNum`. -/
def SubtelNum.try_from_primitive : Nat → Option SubtelNum
  | 3 => some .Send
  | 0 => some .Receive
  | _ => none

/-- `Security` from `src/packet.rs`: discriminants 0..4. -/
inductive Security where
  | None
  | Obsolete
  | Decrypted
  | Authenticated
  | AuthAndDecrypted
deriving DecidableEq, Repr

/-- `TryFromPrimitive for Security`. -/
def Security.try_from_primitive : Nat → Option Security
  | 0 => some .None
  | 1 => some .Obsolete
  | 2 => some .Decrypted
  | 3 => some .Authenticated
  | 4 => some .AuthAndDecrypted
  | _ => none

/-- Modelled from the spec: the telegram-type enumeration `Rorg`
(`crate::enocean`) is not under `src/`, and the spec calls it only "an
enumerated primitive" without fixing its value set (§3, §4.2).  The embedding
is therefore parameterized by its `try_from_primitive` partial map; `some c`
returns the accepted discriminant. -/
def RorgMap : Type := Nat → Option Nat

/-- Modelled from the spec: the return-code enumeration `ReturnCode`
(`crate::enocean`, aliased `ResponseCode`) is not under `src/`; the spec fixes
no value set (§3, §4.3), so its `try_from_primitive` map is a parameter too. -/
def ReturnCodeMap : Type := Nat → Option Nat

/-- `RadioErp1` from `src/packet.rs`.  `choice` stores the accepted `Rorg`
discriminant byte. -/
structure RadioErp1 where
  choice : Nat
  user_data : List Nat
  sender_id : Address
  status : Nat
  subtel_num : Option SubtelNum
  destination : Option Address
  rssi : Option Nat
  security : Option Security
deriving DecidableEq, Repr

/-- `RadioErp1::decode`.  The Rust body first computes
`payload_len = frame.data.len() - 6` with no length guard: when
`data.len() < 6` a debug build panics on the underflow and a release build
wraps and then panics on the subsequent out-of-range slice (or, when `data`
is non-empty and byte 0 is an invalid telegram code, release mode exits early
with `UnsupportedPacketType`); in no build mode does it return
`PacketTooShort`.  The embedding models the checked (debug) semantics:
`crash` when `data.len() < 6`.  Past that guard every index below is in
range, so `getD _ 0` never hits its default.  Field evaluation order of the
Rust struct literal is preserved: `choice` fails first, then `subtel_num`,
then `security`. -/
def RadioErp1.decode (rorg : RorgMap) (frame : ESP3Frame) : DecodeResult RadioErp1 :=
  if frame.data.length < 6 then .crash
  else
    let payload_len := frame.data.length - 6
    let opt_len := frame.optional_data.length
    match rorg (frame.data.getD 0 0) with
    | none => .error .UnsupportedPacketType
    | some choice =>
      match (if 1 ≤ opt_len then
               match SubtelNum.try_from_primitive (frame.optional_data.getD 0 0) with
               | none => DecodeResult.error ParseError.InvalidPrimitive
               | some s => DecodeResult.ok (some s)
             else DecodeResult.ok none : DecodeResult (Option SubtelNum)) with
      | .crash => .crash
      | .error e => .error e
      | .ok subtel_num =>
        match (if 7 ≤ opt_len then
                 match Security.try_from_primitive (frame.optional_data.getD 6 0) with
                 | none => DecodeResult.error ParseError.InvalidPrimitive
                 | some s => DecodeResult.ok (some s)
               else DecodeResult.ok none : DecodeResult (Option Security)) with
        | .crash => .crash
        | .error e => .error e
        | .ok security =>
          .ok { choice := choice,
                user_data := (frame.data.drop 1).take payload_len,
                sender_id := ⟨frame.data.getD (1 + payload_len) 0,
                              frame.data.getD (2 + payload_len) 0,
                              frame.data.getD (3 + payload_len) 0,
                              frame.data.getD (4 + payload_len) 0⟩,
                status := frame.data.getD (5 + payload_len) 0,
                subtel_num := subtel_num,
                destination :=
                  if 5 ≤ opt_len then
                    some ⟨frame.optional_data.getD 1 0, frame.optional_data.getD 2 0,
                          frame.optional_data.getD 3 0, frame.optional_data.getD 4 0⟩
                  else none,
                rssi := if 6 ≤ opt_len then some (frame.optional_data.getD 5 0) else none,
                security := security }

/-- `Response` from `src/packet.rs`; `code` stores the accepted `ReturnCode`
discriminant byte. -/
structure Response where
  code : Nat
  data : List Nat
deriving DecidableEq, Repr

/-- `Response::decode`: reads `frame.data[0]` with no emptiness check — an
empty data segment panics (`crash`); otherwise the code byte is validated
against the return-code set and the rest of `data` becomes the payload. -/
def Response.decode (rc : ReturnCodeMap) (frame : ESP3Frame) : DecodeResult Response :=
  match frame.data with
  | [] => .crash
  | b :: rest =>
    match rc b with
    | none => .error (.InvalidResultCode b)
    | some c => .ok { code := c, data := rest }

/-- `CommonCommand` from `src/packet.rs`. -/
inductive CommonCommand where
  | ReadVersion
  | Unknown (code : Nat) (data : List Nat) (optional : List Nat)
deriving DecidableEq, Repr

/-- `CommonCommand::assemble`: packet type `0x05`, data = code byte followed
by `data`, optional passed through. -/
def CommonCommand.assemble (code : Nat) (data optional : List Nat) : ESP3Frame :=
  ESP3Frame.assemble 0x05 (code :: data) optional

/-- `CommonCommand::encode`. -/
def CommonCommand.encode : CommonCommand → ESP3Frame
  | .Unknown code data optional => CommonCommand.assemble code data optional
  | .ReadVersion => CommonCommand.assemble 0x03 [] []

/-- `Packet` from `src/packet.rs` (the commented-out variants are omitted,
as in the source). -/
inductive Packet where
  | RadioErp1 (r : RadioErp1)
  | Response (r : Response)
  | CommonCommand (c : CommonCommand)
  | Unknown (packet_type : Nat) (data : List Nat) (optional : List Nat)
deriving DecidableEq, Repr

/-- `Packet::encode`.  `RadioErp1::encode` and `Response::encode` are
`todo!()` in the source, i.e. a guaranteed panic: modelled as `none`.
The other arms return the assembled frame. -/
def Packet.encode : Packet → Option ESP3Frame
  | .RadioErp1 _ => none
  | .CommonCommand c => some c.encode
  | .Response _ => none
  | .Unknown packet_type data optional => some (ESP3Frame.assemble packet_type data optional)

/-- `Packet::decode`: dispatch on `frame.packet_type` — `0x01` to
`RadioErp1::decode`, `0x02` to `Response::decode`, anything else is
`UnsupportedPacketType`.  (The Rust `match` on a `u8` with literal arms is a
sequence of equality tests.) -/
def Packet.decode (rorg : RorgMap) (rc : ReturnCodeMap) (frame : ESP3Frame) :
    DecodeResult Packet :=
  if frame.packet_type = 0x01 then (RadioErp1.decode rorg frame).map Packet.RadioErp1
  else if frame.packet_type = 0x02 then (Response.decode rc frame).map Packet.Response
  else .error .UnsupportedPacketType

/-- `Version` from `src/packet.rs`. -/
structure Version where
  main : Nat
  beta : Nat
  alpha : Nat
  build : Nat
deriving DecidableEq, Repr

/-- `VersionResponse` from `src/packet.rs`.  `chip_version` is the 4-byte
array `d[12..16]`; `description` is kept as the UTF-8 byte list of the Rust
`String` (`std::str::from_utf8` returns exactly the bytes it validated). -/
structure VersionResponse where
  app : Version
  api : Version
  chip_id : Address
  chip_version : List Nat
  description : List Nat
deriving DecidableEq, Repr

/-- Is `b` a UTF-8 continuation byte (`0x80..=0xBF`)? -/
def isUtf8Cont (b : Nat) : Bool := 0x80 ≤ b && b ≤ 0xBF

/-- UTF-8 validity of a byte list, as enforced by `std::str::from_utf8`
(shortest-form encodings only, no surrogates, max `U+10FFFF`). -/
def isValidUtf8 : List Nat → Bool
  | [] => true
  | b :: rest =>
    if b ≤ 0x7F then isValidUtf8 rest
    else if 0xC2 ≤ b && b ≤ 0xDF then
      match rest with
      | c1 :: r => isUtf8Cont c1 && isValidUtf8 r
      | _ => false
    else if b = 0xE0 then
      match rest with
      | c1 :: c2 :: r => (0xA0 ≤ c1 && c1 ≤ 0xBF) && isUtf8Cont c2 && isValidUtf8 r
      | _ => false
    else if (0xE1 ≤ b && b ≤ 0xEC) || b = 0xEE || b = 0xEF then
      match rest with
      | c1 :: c2 :: r => isUtf8Cont c1 && isUtf8Cont c2 && isValidUtf8 r
      | _ => false
    else if b = 0xED then
      match rest with
      | c1 :: c2 :: r => (0x80 ≤ c1 && c1 ≤ 0x9F) && isUtf8Cont c2 && isValidUtf8 r
      | _ => false
    else if b = 0xF0 then
      match rest with
      | c1 :: c2 :: c3 :: r =>
        (0x90 ≤ c1 && c1 ≤ 0xBF) && isUtf8Cont c2 && isUtf8Cont c3 && isValidUtf8 r
      | _ => false
    else if 0xF1 ≤ b && b ≤ 0xF3 then
      match rest with
      | c1 :: c2 :: c3 :: r =>
        isUtf8Cont c1 && isUtf8Cont c2 && isUtf8Cont c3 && isValidUtf8 r
      | _ => false
    else if b = 0xF4 then
      match rest with
      | c1 :: c2 :: c3 :: r =>
        (0x80 ≤ c1 && c1 ≤ 0x8F) && isUtf8Cont c2 && isUtf8Cont c3 && isValidUtf8 r
      | _ => false
    else false

/-- Length of the run of leading `0x00` bytes — exactly what the `while`
loop `while idx < s.len() && s[idx] == 0 { idx += 1 }` of `fromcstr`
computes into `idx`. -/
def leadingNulLen : List Nat → Nat
  | 0 :: rest => leadingNulLen rest + 1
  | _ => 0

/-- `fromcstr` from `VersionResponse::decode`, verbatim: the loop condition is
`s[idx] == 0`, so `idx` ends up at the length of the run of *leading* NUL
bytes and the function returns `&s[..idx]` — that run itself — validated as
UTF-8.  (For a buffer starting with a non-NUL byte the result is the empty
string.) -/
def fromcstr (s : List Nat) : Option (List Nat) :=
  let idx := leadingNulLen s
  if isValidUtf8 (s.take idx) then some (s.take idx) else none

/-- `VersionResponse::decode`: requires `data.len() == 32` exactly
(`PacketTooShort` otherwise), then fixed-offset extraction; only the
description field can fail (UTF-8). -/
def VersionResponse.decode (response : Response) : DecodeResult VersionResponse :=
  let d := response.data
  if d.length ≠ 32 then .error .PacketTooShort
  else
    match fromcstr ((d.drop 16).take 16) with
    | none => .error .UTF8
    | some description =>
      .ok { app := ⟨d.getD 0 0, d.getD 1 0, d.getD 2 0, d.getD 3 0⟩,
            api := ⟨d.getD 4 0, d.getD 5 0, d.getD 6 0, d.getD 7 0⟩,
            chip_id := ⟨d.getD 8 0, d.getD 9 0, d.getD 10 0, d.getD 11 0⟩,
            chip_version := (d.drop 12).take 4,
            description := description }

/-- The 32-byte example payload of spec §8: app 1.0.0.1, api 2.0.1.0, chip id
`0xAABBCCDD`, chip version `[0,0,0,1]`, then `b'G', b'W'` and fourteen NULs. -/
def versionExampleData : List Nat :=
  [1, 0, 0, 1, 2, 0, 1, 0, 0xAA, 0xBB, 0xCC, 0xDD, 0, 0, 0, 1,
   71, 87, 0, 0, 0, 0, 0, 0, 0, 0, 0, 0, 0, 0, 0, 0]

/-! ## Helper lemmas -/

theorem hexVal_hexDigitChar : ∀ d < 16, hexVal (hexDigitChar d) = some d := by decide

theorem hexDigitChar_mem_lower : ∀ d < 16, hexDigitChar d ∈ "0123456789abcdef".data := by
  decide

theorem hexDecodePairs_cons_byte (b : Nat) (hb : b < 256) (rest : List Char) :
    hexDecodePairs (hexDigitChar (b / 16) :: hexDigitChar (b % 16) :: rest) =
      (hexDecodePairs rest).map (fun bs => b :: bs) := by
  have h1 : hexVal (hexDigitChar (b / 16)) = some (b / 16) :=
    hexVal_hexDigitChar _ (by omega)
  have h2 : hexVal (hexDigitChar (b % 16)) = some (b % 16) :=
    hexVal_hexDigitChar _ (by omega)
  simp only [hexDecodePairs, h1, h2, Option.some_bind]
  cases hexDecodePairs rest <;> simp [Nat.div_add_mod]

theorem hexDecodePairs_none_of_bad (s : List Char) (c : Char) (hc : c ∈ s)
    (hbad : hexVal c = none) : hexDecodePairs s = none := by
  induction s using hexDecodePairs.induct with
  | case1 => simp at hc
  | case2 hi lo rest ih =>
    simp only [List.mem_cons] at hc
    rcases hc with h | h | h
    · subst h; simp [hexDecodePairs, hbad]
    · subst h; cases hhi : hexVal hi <;> simp [hexDecodePairs, hhi, hbad]
    · cases hhi : hexVal hi <;> cases hlo : hexVal lo <;>
        simp [hexDecodePairs, hhi, hlo, ih h]
  | case3 x => simp [hexDecodePairs]

theorem hexDecodePairs_some (s : List Char) (hev : s.length % 2 = 0)
    (hhex : ∀ c ∈ s, (hexVal c).isSome) :
    ∃ bs, hexDecodePairs s = some bs ∧ bs.length = s.length / 2 := by
  induction s using hexDecodePairs.induct with
  | case1 => exact ⟨[], rfl, rfl⟩
  | case2 hi lo rest ih =>
    obtain ⟨h, hh⟩ := Option.isSome_iff_exists.mp (hhex hi (by simp))
    obtain ⟨l, hl⟩ := Option.isSome_iff_exists.mp (hhex lo (by simp))
    have hev2 : rest.length % 2 = 0 := by
      simp only [List.length_cons] at hev
      omega
    obtain ⟨bs, hbs, hlen⟩ := ih hev2 (fun c hc => hhex c (by simp [hc]))
    refine ⟨(16 * h + l) :: bs, ?_, ?_⟩
    · simp [hexDecodePairs, hh, hl, hbs]
    · simp [hlen]; omega
  | case3 x => simp at hev

theorem hexDecodePairs_map_toLower_aux (s : List Char)
    (hlow : ∀ c ∈ s, hexVal (Char.toLower c) = hexVal c) :
    hexDecodePairs (s.map Char.toLower) = hexDecodePairs s := by
  induction s using hexDecodePairs.induct with
  | case1 => rfl
  | case2 hi lo rest ih =>
    simp only [List.map_cons, hexDecodePairs,
      hlow hi (by simp), hlow lo (by simp),
      ih (fun c hc => hlow c (by simp [hc]))]
  | case3 x => simp [hexDecodePairs]

theorem toLower_eq_of_not_upper (c : Char) (h : ¬(65 ≤ c.toNat ∧ c.toNat ≤ 90)) :
    Char.toLower c = c := by
  unfold Char.toLower
  rw [if_neg h]

theorem hexVal_toLower (c : Char) (h : (hexVal c).isSome) :
    hexVal (Char.toLower c) = hexVal c := by
  by_cases h1 : 48 ≤ c.toNat ∧ c.toNat ≤ 57
  · rw [toLower_eq_of_not_upper c (by omega)]
  · by_cases h2 : 97 ≤ c.toNat ∧ c.toNat ≤ 102
    · rw [toLower_eq_of_not_upper c (by omega)]
    · by_cases h3 : 65 ≤ c.toNat ∧ c.toNat ≤ 70
      · have hlow : Char.toLower c = Char.ofNat (c.toNat + 32) := by
          unfold Char.toLower
          rw [if_pos ⟨h3.1, by omega⟩]
        have he : c.toNat = 65 ∨ c.toNat = 66 ∨ c.toNat = 67 ∨ c.toNat = 68 ∨
            c.toNat = 69 ∨ c.toNat = 70 := by omega
        rcases he with h | h | h | h | h | h <;> simp [hlow, hexVal, h]
      · simp [hexVal, h1, h2, h3] at h

theorem hexDecodePairs_display (a : Address) (ha : a.wf) :
    hexDecodePairs a.display = some [a.b0, a.b1, a.b2, a.b3] := by
  obtain ⟨h0, h1, h2, h3⟩ := ha
  show hexDecodePairs
      (hexDigitChar (a.b0 / 16) :: hexDigitChar (a.b0 % 16) ::
        (hexDigitChar (a.b1 / 16) :: hexDigitChar (a.b1 % 16) ::
          (hexDigitChar (a.b2 / 16) :: hexDigitChar (a.b2 % 16) ::
            (hexDigitChar (a.b3 / 16) :: hexDigitChar (a.b3 % 16) :: [])))) = _
  rw [hexDecodePairs_cons_byte _ h0, hexDecodePairs_cons_byte _ h1,
      hexDecodePairs_cons_byte _ h2, hexDecodePairs_cons_byte _ h3]
  rfl

theorem list_len_four {α : Type} (bs : List α) (h : bs.length = 4) :
    ∃ x0 x1 x2 x3, bs = [x0, x1, x2, x3] := by
  rcases bs with _ | ⟨x0, _ | ⟨x1, _ | ⟨x2, _ | ⟨x3, _ | ⟨x4, t⟩⟩⟩⟩⟩ <;> simp at h
  exact ⟨x0, x1, x2, x3, rfl⟩

theorem isSome_ite {α : Type} (c : Prop) [Decidable c] (x : α) :
    (if c then some x else none).isSome = decide c := by
  by_cases h : c <;> simp [h]

/-! ## Claim theorems -/

/-- C1: the claim says a `packet_type = 0x01` frame whose data segment is
shorter than 6 bytes makes `RadioErp1::decode` (hence `Packet::decode`)
return `PacketTooShort` without panicking.  The code has no length guard:
`data.len() - 6` underflows and the decode panics (debug) or wraps and
panics on the subsequent slice (release) — it never returns
`PacketTooShort`.  This theorem evaluates the embedded code at the failing
inputs: empty data and 5-byte data both crash. -/
theorem radioErp1_short_crash :
    RadioErp1.decode (fun _ => none) ⟨0x01, [], []⟩ = .crash ∧
    Packet.decode (fun _ => none) (fun _ => none) ⟨0x01, [], []⟩ = .crash ∧
    RadioErp1.decode (fun _ => none) ⟨0x01, [0, 1, 2, 3, 4], []⟩ = .crash ∧
    RadioErp1.decode (fun _ => none) ⟨0x01, [0, 1, 2, 3, 4], []⟩ ≠
      .error .PacketTooShort :=
  ⟨rfl, rfl, rfl, by decide⟩

/-- C2: the claim says `Response::decode` of an empty data segment returns a
`PacketTooShort`-class error explicitly.  The code reads `frame.data[0]`
with no emptiness check, so it panics instead; this theorem evaluates the
embedded code at the failing input. -/
theorem response_empty_crash :
    Response.decode (fun _ => none) ⟨0x02, [], []⟩ = .crash ∧
    Packet.decode (fun _ => none) (fun _ => none) ⟨0x02, [], []⟩ = .crash ∧
    Response.decode (fun _ => none) ⟨0x02, [], []⟩ ≠ .error .PacketTooShort :=
  ⟨rfl, rfl, by decide⟩

/-- C3: the claim says the 32-byte example decodes with `description = "GW"`
(the text before the first NUL).  All fixed-offset fields decode as claimed,
but `fromcstr`'s loop condition is `s[idx] == 0` (not `!= 0`), so it returns
the run of *leading* NUL bytes: for a description field starting `G`, `W`
the result is the empty string, not `"GW"` (`'G' = 71`, `'W' = 87`).
This theorem evaluates the embedded code at the failing input. -/
theorem versionResponse_example_divergence :
    VersionResponse.decode ⟨0, versionExampleData⟩ =
      .ok { app := ⟨1, 0, 0, 1⟩, api := ⟨2, 0, 1, 0⟩,
            chip_id := ⟨0xAA, 0xBB, 0xCC, 0xDD⟩,
            chip_version := [0, 0, 0, 1], description := [] } ∧
    Address.display ⟨0xAA, 0xBB, 0xCC, 0xDD⟩ = "aabbccdd".data ∧
    VersionResponse.decode ⟨0, versionExampleData⟩ ≠
      .ok { app := ⟨1, 0, 0, 1⟩, api := ⟨2, 0, 1, 0⟩,
            chip_id := ⟨0xAA, 0xBB, 0xCC, 0xDD⟩,
            chip_version := [0, 0, 0, 1], description := [71, 87] } :=
  ⟨by decide, by decide, by decide⟩

/-- C4 counterexample: the claim says `Packet::decode` of a frame whose tag is
neither 0x01 nor 0x02 yields `Packet::Unknown` with the raw segments.  At
tag `0x7F` with data `[1,2]` and optional `[3]` the decoder instead fails
with `UnsupportedPacketType` and in particular does not return the claimed
`Unknown` value. -/
theorem packet_unknown_decode_cex :
    Packet.decode (fun _ => none) (fun _ => none) ⟨0x7F, [1, 2], [3]⟩ =
      .error .UnsupportedPacketType ∧
    Packet.decode (fun _ => none) (fun _ => none) ⟨0x7F, [1, 2], [3]⟩ ≠
      .ok (.Unknown 0x7F [1, 2] [3]) :=
  ⟨rfl, by decide⟩

/-- C4 amended: for every `(tag, data, optional)` with tag neither 0x01 nor
0x02, `Packet::decode` fails with `UnsupportedPacketType` (it never produces
`Unknown`); encoding a directly-constructed `Packet::Unknown` holding the
raw tag, data and optional segment reproduces exactly the original frame
bytes (lossless round-trip through `Unknown` on the encode side). -/
theorem packet_unknown_encode_lossless (rorg : RorgMap) (rc : ReturnCodeMap)
    (tag : Nat) (data optional : List Nat) (h1 : tag ≠ 0x01) (h2 : tag ≠ 0x02) :
    Packet.decode rorg rc ⟨tag, data, optional⟩ = .error .UnsupportedPacketType ∧
    (Packet.Unknown tag data optional).encode =
      some (ESP3Frame.assemble tag data optional) := by
  refine ⟨?_, rfl⟩
  simp [Packet.decode, h1, h2]

theorem packet_unknown_encode_lossless_witness :
    Packet.decode (fun _ => none) (fun _ => none) ⟨0x7F, [4, 5], [6]⟩ =
      .error .UnsupportedPacketType ∧
    (Packet.Unknown 0x7F [4, 5] [6]).encode =
      some (ESP3Frame.assemble 0x7F [4, 5] [6]) :=
  packet_unknown_encode_lossless _ _ _ _ _ (by decide) (by decide)

/-- C5: `Packet::decode` dispatches on `frame.packet_type`: tag 0x01 routes to
`RadioErp1::decode` wrapped as `Packet::RadioErp1`, tag 0x02 routes to
`Response::decode` wrapped as `Packet::Response`, and any other tag fails
with `UnsupportedPacketType`. -/
theorem packet_decode_dispatch (rorg : RorgMap) (rc : ReturnCodeMap)
    (frame : ESP3Frame) :
    (frame.packet_type = 0x01 →
      Packet.decode rorg rc frame = (RadioErp1.decode rorg frame).map Packet.RadioErp1) ∧
    (frame.packet_type = 0x02 →
      Packet.decode rorg rc frame = (Response.decode rc frame).map Packet.Response) ∧
    (frame.packet_type ≠ 0x01 → frame.packet_type ≠ 0x02 →
      Packet.decode rorg rc frame = .error .UnsupportedPacketType) := by
  refine ⟨fun h => ?_, fun h => ?_, fun h1 h2 => ?_⟩ <;> simp [Packet.decode, *]

theorem packet_decode_dispatch_witness :
    Packet.decode (fun _ => none) (fun _ => none) ⟨0x7F, [], []⟩ =
      .error .UnsupportedPacketType ∧
    Packet.decode (fun _ => some 0xF6) (fun _ => none) ⟨0x01, [0xF6, 9, 1, 2, 3, 4, 0], []⟩ =
      (RadioErp1.decode (fun _ => some 0xF6) ⟨0x01, [0xF6, 9, 1, 2, 3, 4, 0], []⟩).map
        Packet.RadioErp1 ∧
    Packet.decode (fun _ => none) (fun b => if b = 0 then some 0 else none) ⟨0x02, [0], []⟩ =
      (Response.decode (fun b => if b = 0 then some 0 else none) ⟨0x02, [0], []⟩).map
        Packet.Response :=
  ⟨(packet_decode_dispatch _ _ _).2.2 (by decide) (by decide),
   (packet_decode_dispatch _ _ _).1 (by decide),
   (packet_decode_dispatch _ _ _).2.1 (by decide)⟩

/-- C8: for a tag-0x02 frame with non-empty data, `Response::decode` returns
`InvalidResultCode(b)` exactly when the leading byte `b` is outside the
enumerated return-code set, and otherwise succeeds with the enumerated code
and the remaining bytes (of any length, including empty) as payload. -/
theorem response_decode_code_spec (rc : ReturnCodeMap) (frame : ESP3Frame)
    (_htag : frame.packet_type = 0x02) (b : Nat) (rest : List Nat)
    (hdata : frame.data = b :: rest) :
    (rc b = none → Response.decode rc frame = .error (.InvalidResultCode b)) ∧
    (∀ c, rc b = some c → Response.decode rc frame = .ok { code := c, data := rest }) := by
  constructor
  · intro h; simp [Response.decode, hdata, h]
  · intro c h; simp [Response.decode, hdata, h]

theorem response_decode_code_spec_witness :
    Response.decode (fun x => if x = 0 then some 0 else none) ⟨0x02, [0xFE, 7], []⟩ =
      .error (.InvalidResultCode 0xFE) ∧
    Response.decode (fun x => if x = 0 then some 0 else none) ⟨0x02, [0], []⟩ =
      .ok { code := 0, data := [] } :=
  ⟨(response_decode_code_spec _ ⟨0x02, [0xFE, 7], []⟩ (by decide) 0xFE [7] (by decide)).1
      (by decide),
   (response_decode_code_spec _ ⟨0x02, [0], []⟩ (by decide) 0 [] (by decide)).2 0
      (by decide)⟩

/-- C9: `CommonCommand::ReadVersion` encodes to a frame with packet type
0x05, data exactly `[0x03]` and empty optional segment; and every
`CommonCommand::Unknown{code,data,optional}` encodes to packet type 0x05
with data `code :: data` and the optional segment passed through unchanged. -/
theorem commonCommand_encode_spec :
    CommonCommand.ReadVersion.encode = ESP3Frame.assemble 0x05 [0x03] [] ∧
    ∀ code data optional, (CommonCommand.Unknown code data optional).encode =
      ESP3Frame.assemble 0x05 (code :: data) optional :=
  ⟨rfl, fun _ _ _ => rfl⟩

/-- C6: for every 4-byte `Address`, parsing the `Display` text yields the same
address back; the textual form is exactly 8 lowercase hex characters with no
separators; and parsing fails for any string whose length is not 8 or that
contains a non-hex character. -/
theorem address_text_roundtrip :
    (∀ a : Address, a.wf →
      Address.from_str a.display = some a ∧
      a.display.length = 8 ∧
      ∀ c ∈ a.display, c ∈ "0123456789abcdef".data) ∧
    (∀ s : List Char, s.length ≠ 8 → Address.from_str s = none) ∧
    (∀ s : List Char, ∀ c ∈ s, hexVal c = none → Address.from_str s = none) := by
  refine ⟨fun a ha => ⟨?_, rfl, ?_⟩, fun s hs => ?_, fun s c hc hbad => ?_⟩
  · have hd := hexDecodePairs_display a ha
    have hlen : a.display.length = 8 := rfl
    unfold Address.from_str
    rw [hlen, hd]
    rfl
  · intro c hcmem
    obtain ⟨h0, h1, h2, h3⟩ := ha
    simp only [Address.display, List.mem_cons, List.not_mem_nil, or_false] at hcmem
    rcases hcmem with h | h | h | h | h | h | h | h <;> subst h <;>
      exact hexDigitChar_mem_lower _ (by omega)
  · unfold Address.from_str
    by_cases h2 : s.length % 2 = 0
    · have h4 : s.length / 2 ≠ 4 := by omega
      simp [h2, h4]
    · simp [h2]
  · have h := hexDecodePairs_none_of_bad s c hc hbad
    unfold Address.from_str
    by_cases hp : s.length % 2 = 0
    · by_cases hq : s.length / 2 = 4
      · simp [hp, hq, h]
      · simp [hp, hq]
    · simp [hp]

theorem address_text_roundtrip_witness :
    Address.from_str (Address.display ⟨0xde, 0xad, 0xbe, 0xef⟩) =
      some ⟨0xde, 0xad, 0xbe, 0xef⟩ ∧
    Address.from_str "deadbee".data = none ∧
    Address.from_str "deadbeez".data = none :=
  ⟨(address_text_roundtrip.1 ⟨0xde, 0xad, 0xbe, 0xef⟩ (by decide)).1,
   address_text_roundtrip.2.1 _ (by decide),
   address_text_roundtrip.2.2 _ 'z' (by decide) (by decide)⟩

/-- C7: for a well-formed `RadioErp1` frame (data length ≥ 6, valid
telegram-type byte) whose optional bytes at the validated positions are in
their enumerated sets, decode succeeds and exposes exactly the optional
fields permitted by the length thresholds: `subtel_num` present iff the
optional segment has length ≥ 1, `destination` iff ≥ 5, `rssi` iff ≥ 6,
`security` iff ≥ 7; shorter optional segments leave later fields `none`
without error. -/
theorem radioErp1_optional_thresholds (rorg : RorgMap) (frame : ESP3Frame)
    (h6 : 6 ≤ frame.data.length) (r : Nat)
    (hr : rorg (frame.data.getD 0 0) = some r)
    (hst : 1 ≤ frame.optional_data.length →
      (SubtelNum.try_from_primitive (frame.optional_data.getD 0 0)).isSome)
    (hsec : 7 ≤ frame.optional_data.length →
      (Security.try_from_primitive (frame.optional_data.getD 6 0)).isSome) :
    ∃ res, RadioErp1.decode rorg frame = .ok res ∧
      res.subtel_num.isSome = decide (1 ≤ frame.optional_data.length) ∧
      res.destination.isSome = decide (5 ≤ frame.optional_data.length) ∧
      res.rssi.isSome = decide (6 ≤ frame.optional_data.length) ∧
      res.security.isSome = decide (7 ≤ frame.optional_data.length) := by
  have hlt : ¬ frame.data.length < 6 := by omega
  by_cases h1 : 1 ≤ frame.optional_data.length
  · obtain ⟨st, hstv⟩ := Option.isSome_iff_exists.mp (hst h1)
    by_cases h7 : 7 ≤ frame.optional_data.length
    · obtain ⟨sv, hsecv⟩ := Option.isSome_iff_exists.mp (hsec h7)
      simp only [RadioErp1.decode, if_neg hlt, hr, hstv, hsecv, if_pos h1, if_pos h7]
      exact ⟨_, rfl, by simp [h1], by rw [isSome_ite], by rw [isSome_ite], by simp [h7]⟩
    · simp only [RadioErp1.decode, if_neg hlt, hr, hstv, if_pos h1, if_neg h7]
      exact ⟨_, rfl, by simp [h1], by rw [isSome_ite], by rw [isSome_ite], by simp [h7]⟩
  · have h7 : ¬ 7 ≤ frame.optional_data.length := by omega
    simp only [RadioErp1.decode, if_neg hlt, hr, if_neg h1, if_neg h7]
    exact ⟨_, rfl, by simp [h1], by rw [isSome_ite], by rw [isSome_ite], by simp [h7]⟩

theorem radioErp1_optional_thresholds_witness :
    ∃ res, RadioErp1.decode (fun b => if b = 0xF6 then some 0xF6 else none)
        ⟨0x01, [0xF6, 9, 1, 2, 3, 4, 0], [3, 1, 2, 3, 4]⟩ = .ok res ∧
      res.subtel_num.isSome = true ∧
      res.destination.isSome = true ∧
      res.rssi.isSome = false ∧
      res.security.isSome = false :=
  radioErp1_optional_thresholds _ ⟨0x01, [0xF6, 9, 1, 2, 3, 4, 0], [3, 1, 2, 3, 4]⟩
    (by decide) 0xF6 (by decide) (by decide) (by decide)

/-- C10: address parsing is case-insensitive: every 8-character hex string
parses successfully whatever the letter case, and an uppercase or mixed-case
spelling parses to the same `Address` value as its lowercase spelling (the
canonical `Display` form being lowercase). -/
theorem address_parse_case_insensitive (s : List Char) (h8 : s.length = 8)
    (hhex : ∀ c ∈ s, (hexVal c).isSome) :
    (Address.from_str s).isSome ∧
    Address.from_str (s.map Char.toLower) = Address.from_str s := by
  constructor
  · obtain ⟨bs, hbs, hlen⟩ := hexDecodePairs_some s (by omega) hhex
    rw [h8] at hlen
    obtain ⟨x0, x1, x2, x3, rfl⟩ := list_len_four bs hlen
    unfold Address.from_str
    simp [h8, hbs]
  · have hmap := hexDecodePairs_map_toLower_aux s
      (fun c hc => hexVal_toLower c (hhex c hc))
    unfold Address.from_str
    rw [List.length_map, hmap]

theorem address_parse_case_insensitive_witness :
    (Address.from_str "DEADBEEF".data).isSome ∧
    Address.from_str ("DEADBEEF".data.map Char.toLower) =
      Address.from_str "DEADBEEF".data :=
  address_parse_case_insensitive _ (by decide) (by decide)

end Enocean
